import Mathlib

/-!
Verification of the HiveMonitorTUI action-execution core.

This file gives a shallow embedding, in Lean, of the parts of the
HiveMonitorTUI repository that the specification talks about:

* the JSON value model and the per-line decoding performed by
  `HiveInferClient::pull_model` (src/clients/infer_client.rs),
* the newline-delimited stream ingestion loop of the same function,
* the shared application state `App` and its mutation methods
  (src/app.rs),
* the key-event dispatch `handle_events` (src/events/handler.rs),
* the spawned background action task and its atomic, lock-scoped
  writes back into the shared state, as an interleaved transition
  system.

Bytes of the remote stream are modelled as Unicode scalar values
(`Char`); every input exercised by the specification is ASCII, so the
`String::from_utf8` step of the source, which can only fail on invalid
UTF-8, is total in the model.
-/

namespace HiveTUI

/-! ## JSON values: embedding of `serde_json::Value` as used by the client

The source stores parsed lines as `serde_json::Value` and uses only
`get`, `as_str`, `as_bool`, `is_null` and `to_string` on them.  Numbers
appear in none of the streamed records the specification mentions, so
integer payloads suffice for the model. -/

inductive Json where
  | null : Json
  | bool (b : Bool) : Json
  | num (n : Int) : Json
  | str (s : String) : Json
  | arr (elems : List Json) : Json
  | obj (fields : List (String × Json)) : Json
deriving Repr

/-- Embedding of `Value::get(key)` for objects: the first binding of the
key, `None` on non-objects or missing keys. -/
def Json.get : Json → String → Option Json
  | .obj fields, k => fields.lookup k
  | _, _ => none

/-- Embedding of `Value::as_str`. -/
def Json.asStr : Json → Option String
  | .str s => some s
  | _ => none

/-- Embedding of `Value::as_bool`. -/
def Json.asBool : Json → Option Bool
  | .bool b => some b
  | _ => none

/-- Embedding of `Value::is_null`. -/
def Json.isNull : Json → Bool
  | .null => true
  | _ => false

/-- Opening brace character, kept as a named constant. -/
def lbrace : Char := '\x7b'

/-- Closing brace character, kept as a named constant. -/
def rbrace : Char := '\x7d'

/-- String escaping for compact JSON serialization: quote and backslash
are escaped; every string the specification exercises needs none. -/
def escapeJsonString (s : String) : String :=
  s.toList.foldl
    (fun acc c =>
      if c = '"' then acc ++ "\\\""
      else if c = '\\' then acc ++ "\\\\"
      else acc.push c) ""

mutual

/-- Embedding of `Value::to_string` (compact form, fields in stored
order; `serde_json` with its default `BTreeMap` keeps keys sorted, and
every object the specification exercises has a single field or fields
already in sorted order, so the two agree on all exercised inputs). -/
def Json.render : Json → String
  | .null => "null"
  | .bool true => "true"
  | .bool false => "false"
  | .num n => toString n
  | .str s => "\"" ++ escapeJsonString s ++ "\""
  | .arr elems => "[" ++ Json.renderArr elems ++ "]"
  | .obj fields => lbrace.toString ++ Json.renderObj fields ++ rbrace.toString

/-- Comma-separated rendering of array elements. -/
def Json.renderArr : List Json → String
  | [] => ""
  | [x] => x.render
  | x :: xs => x.render ++ "," ++ Json.renderArr xs

/-- Comma-separated rendering of object fields. -/
def Json.renderObj : List (String × Json) → String
  | [] => ""
  | [(k, v)] => "\"" ++ escapeJsonString k ++ "\":" ++ v.render
  | (k, v) :: xs => "\"" ++ escapeJsonString k ++ "\":" ++ v.render ++ "," ++ Json.renderObj xs

end

/-! ## JSON parsing: embedding of `serde_json::from_str::<Value>`

A recursive-descent parser over the characters of the line.  The fuel
argument bounds nesting and field counts; the entry point passes more
fuel than any input can consume, so fuel exhaustion is unreachable on
actual inputs.  Error messages are the model's own: the source surfaces
`serde_json` error strings whose exact text the specification never
pins down, only that a decode error is reported. -/

/-- ASCII whitespace, as skipped by `serde_json` between tokens. -/
def isJsonWs (c : Char) : Bool :=
  c = ' ' || c = '\t' || c = '\n' || c = '\r'

/-- Skip leading whitespace. -/
def skipWs (cs : List Char) : List Char :=
  cs.dropWhile isJsonWs

/-- Parse the remainder of a string literal after the opening quote.
Common escapes are handled; `\u` escapes appear in no exercised input
and are rejected by the model. -/
def parseStrRest (acc : List Char) : List Char → Except String (String × List Char)
  | [] => .error "unterminated string"
  | '"' :: rest => .ok (String.mk acc.reverse, rest)
  | '\\' :: e :: rest =>
    if e = '"' then parseStrRest ('"' :: acc) rest
    else if e = '\\' then parseStrRest ('\\' :: acc) rest
    else if e = '/' then parseStrRest ('/' :: acc) rest
    else if e = 'n' then parseStrRest ('\n' :: acc) rest
    else if e = 't' then parseStrRest ('\t' :: acc) rest
    else if e = 'r' then parseStrRest ('\r' :: acc) rest
    else .error "unsupported escape"
  | '\\' :: [] => .error "unterminated escape"
  | c :: rest => parseStrRest (c :: acc) rest

/-- Expect a literal keyword continuation such as `rue` after `t`. -/
def parseKeyword (lit : List Char) (cs : List Char) : Except String (List Char) :=
  if lit.isPrefixOf cs then .ok (cs.drop lit.length) else .error "invalid keyword"

/-- Parse an integer literal; fractional and exponent forms appear in no
exercised input and are rejected by the model. -/
def parseNum (cs : List Char) : Except String (Json × List Char) :=
  let (sign, cs) := if cs.head? = some '-' then ((-1 : Int), cs.drop 1) else (1, cs)
  let digits := cs.takeWhile Char.isDigit
  let rest := cs.dropWhile Char.isDigit
  if digits.isEmpty then .error "expected digits"
  else if rest.head? = some '.' || rest.head? = some 'e' || rest.head? = some 'E' then
    .error "unsupported number form"
  else
    let v : Int := digits.foldl (fun a c => a * 10 + (c.toNat - 48)) (0 : Int)
    .ok (.num (sign * v), rest)

mutual

/-- Parse one JSON value at the front of the input. -/
def parseValue : Nat → List Char → Except String (Json × List Char)
  | 0, _ => .error "input too deeply nested"
  | fuel + 1, cs =>
    match skipWs cs with
    | [] => .error "unexpected end of input"
    | c :: rest =>
      if c = '"' then
        match parseStrRest [] rest with
        | .ok (s, r) => .ok (.str s, r)
        | .error e => .error e
      else if c = lbrace then
        match skipWs rest with
        | c2 :: rest2 =>
          if c2 = rbrace then .ok (.obj [], rest2)
          else
            match parseObjFields fuel (c2 :: rest2) with
            | .ok (fields, r) => .ok (.obj fields, r)
            | .error e => .error e
        | [] => .error "unterminated object"
      else if c = '[' then
        match skipWs rest with
        | c2 :: rest2 =>
          if c2 = ']' then .ok (.arr [], rest2)
          else
            match parseArrElems fuel (c2 :: rest2) with
            | .ok (elems, r) => .ok (.arr elems, r)
            | .error e => .error e
        | [] => .error "unterminated array"
      else if c = 't' then
        match parseKeyword ['r', 'u', 'e'] rest with
        | .ok r => .ok (.bool true, r)
        | .error e => .error e
      else if c = 'f' then
        match parseKeyword ['a', 'l', 's', 'e'] rest with
        | .ok r => .ok (.bool false, r)
        | .error e => .error e
      else if c = 'n' then
        match parseKeyword ['u', 'l', 'l'] rest with
        | .ok r => .ok (.null, r)
        | .error e => .error e
      else if c = '-' || c.isDigit then parseNum (c :: rest)
      else .error "expected value"

/-- Parse one or more `"key": value` fields followed by a closing brace. -/
def parseObjFields : Nat → List Char → Except String (List (String × Json) × List Char)
  | 0, _ => .error "input too deeply nested"
  | fuel + 1, cs =>
    match skipWs cs with
    | '"' :: rest =>
      match parseStrRest [] rest with
      | .ok (k, r) =>
        match skipWs r with
        | ':' :: r2 =>
          match parseValue fuel r2 with
          | .ok (v, r3) =>
            match skipWs r3 with
            | ',' :: r4 =>
              match parseObjFields fuel r4 with
              | .ok (fields, r5) => .ok ((k, v) :: fields, r5)
              | .error e => .error e
            | c :: r4 =>
              if c = rbrace then .ok ([(k, v)], r4)
              else .error "expected comma or closing brace"
            | [] => .error "unterminated object"
          | .error e => .error e
        | _ => .error "expected colon"
      | .error e => .error e
    | _ => .error "expected object key"

/-- Parse one or more array elements followed by a closing bracket. -/
def parseArrElems : Nat → List Char → Except String (List Json × List Char)
  | 0, _ => .error "input too deeply nested"
  | fuel + 1, cs =>
    match parseValue fuel cs with
    | .ok (v, r) =>
      match skipWs r with
      | ',' :: r2 =>
        match parseArrElems fuel r2 with
        | .ok (elems, r3) => .ok (v :: elems, r3)
        | .error e => .error e
      | ']' :: r2 => .ok ([v], r2)
      | _ => .error "expected comma or closing bracket"
    | .error e => .error e

end

/-- Embedding of `serde_json::from_str::<Value>`: exactly one value,
with only whitespace allowed after it. -/
def parseJson (s : String) : Except String Json :=
  match parseValue (2 * s.length + 4) s.toList with
  | .ok (j, rest) =>
    if (skipWs rest).isEmpty then .ok j else .error "trailing characters"
  | .error e => .error e

/-! ## Per-line decoding of the pull/delete stream
(src/clients/infer_client.rs, lines 98-121 and 132-149) -/

/-- One decoded record of the streamed response: the human-readable
message pushed through `add_action_output_line` and the per-line
success flag. -/
structure OutputRecord where
  message : String
  isSuccess : Bool
deriving Repr, DecidableEq

/-- The message of a parsed line: `get("status").or(get("message"))`,
`and_then(as_str)`, falling back to the full compact serialization. -/
def jsonMessage (j : Json) : String :=
  (((j.get "status").or (j.get "message")).bind Json.asStr).getD j.render

/-- The per-line success flag of a parsed line, exactly as computed by
the source: `get("error").is_none_or(|err| err.is_null() ||
!err.as_bool().unwrap_or(false))`. -/
def jsonLineSuccess (j : Json) : Bool :=
  match j.get "error" with
  | none => true
  | some err => err.isNull || !(err.asBool.getD false)

/-- Decoding of one complete (newline-terminated, already trimmed)
stream line, `Ok`/`Err` branches of lines 98-121. -/
def decodePullLine (trimmedLine : String) : OutputRecord :=
  match parseJson trimmedLine with
  | .ok j => ⟨jsonMessage j, jsonLineSuccess j⟩
  | .error e => ⟨"Non-JSON line: " ++ trimmedLine ++ " (Parse Error: " ++ e ++ ")", false⟩

/-- Decoding of the final unterminated remainder after the stream ends,
lines 132-149; identical except for the error-message prefix. -/
def decodeFinalPullLine (trimmedLine : String) : OutputRecord :=
  match parseJson trimmedLine with
  | .ok j => ⟨jsonMessage j, jsonLineSuccess j⟩
  | .error e => ⟨"Non-JSON final line: " ++ trimmedLine ++ " (Parse Error: " ++ e ++ ")", false⟩

/-! ## Stream ingestion (src/clients/infer_client.rs, lines 76-151)

The source appends each received chunk to a carry-over byte buffer and
then repeatedly finds the first `\n`, drains the buffer through it, and
processes the drained line (trim, skip empty, decode).  `breakLines`
computes the same decomposition in one pass: the complete lines before
each successive newline (without their terminators, which trimming
removes in the source anyway) together with the newline-free remainder
kept in the buffer. -/

/-- Split a buffer into the complete lines before each newline and the
trailing newline-free remainder. -/
def breakLines : List Char → List (List Char) × List Char
  | [] => ([], [])
  | c :: cs =>
    let p := breakLines cs
    if c = '\n' then ([] :: p.1, p.2)
    else
      match p with
      | ([], r) => ([], c :: r)
      | (l :: ls, r) => ((c :: l) :: ls, r)

/-- Embedding of `str::trim` (the exercised inputs are ASCII, where
Rust's Unicode white-space class and `Char.isWhitespace` agree). -/
def trimChars (l : List Char) : List Char :=
  ((l.dropWhile Char.isWhitespace).reverse.dropWhile Char.isWhitespace).reverse

/-- Processing of one complete drained line: trim, skip if empty, else
decode (lines 88-121). -/
def processCompleteLine (line : List Char) : Option OutputRecord :=
  let t := trimChars line
  if t.isEmpty then none else some (decodePullLine (String.mk t))

/-- Processing of the remainder left in the buffer when the stream ends
(lines 126-151). -/
def processFinalBuffer (buf : List Char) : List OutputRecord :=
  if buf.isEmpty then []
  else
    let t := trimChars buf
    if t.isEmpty then [] else [decodeFinalPullLine (String.mk t)]

/-- Effect of receiving one chunk: extend the buffer, drain and decode
every complete line, keep the remainder. -/
def chunkStep (buf chunk : List Char) : List OutputRecord × List Char :=
  let p := breakLines (buf ++ chunk)
  (p.1.filterMap processCompleteLine, p.2)

/-- Fold `chunkStep` over the received chunks, starting from a given
buffer; returns the decoded records in emission order and the final
buffer contents. -/
def runChunks : List Char → List (List Char) → List OutputRecord × List Char
  | buf, [] => ([], buf)
  | buf, c :: cs =>
    let p := chunkStep buf c
    let q := runChunks p.2 cs
    (p.1 ++ q.1, q.2)

/-- The full sequence of records decoded from a chunked stream,
including the final-remainder processing. -/
def streamRecords (chunks : List (List Char)) : List OutputRecord :=
  let p := runChunks [] chunks
  p.1 ++ processFinalBuffer p.2

/-- The records decoded from the whole byte sequence delivered as a
single chunk. -/
def processAllBytes (bs : List Char) : List OutputRecord :=
  let p := breakLines bs
  p.1.filterMap processCompleteLine ++ processFinalBuffer p.2

/-! ## Data model (src/models.rs, src/config.rs)

Hash maps are modelled as association lists and `DateTime<Utc>` values
as integer timestamps; no claim depends on map ordering or on dates. -/

structure WorkerVersion where
  hive : String
  ollama : String
deriving Repr, DecidableEq

inductive NodeStatus where
  | Verified
  | Waiting
  | Unknown
deriving Repr, DecidableEq

abbrev WorkerVersions := List (String × WorkerVersion)

abbrev WorkerStatuses := List (String × NodeStatus)

abbrev WorkerConnections := List (String × Nat)

abbrev WorkerPings := List (String × Int)

abbrev WorkerTags := List (String × List String)

abbrev QueueMap := List (String × Nat)

structure AuthKey where
  id : String
  name : String
  role : String
  created_at : Int
deriving Repr, DecidableEq

abbrev AuthKeys := List AuthKey

structure GenerateResponse where
  result : String
  extra : List (String × Json)
deriving Repr

structure Profile where
  name : String
  host : String
  port_infer : Nat
  port_manage : Nat
  client_token : String
  admin_token : String
deriving Repr, DecidableEq

/-! ## Shared application state (src/app.rs) -/

inductive Focus where
  | WorkersList
  | ActionsList
  | GlobalView
  | ActionPanelInput
  | ActionPanelConfirm
  | ActionPanelResponse
deriving Repr, DecidableEq

inductive ActionType where
  | Pull
  | Delete
deriving Repr, DecidableEq

inductive ActionPanelState where
  | None
  | PullModel
  | DeleteModel
  | Confirmation (model : String) (action : ActionType)
  | Response (model : String) (action : ActionType) (lines : List String) (success : Bool)
deriving Repr, DecidableEq

/-- Whether the panel is in the `Running/Response` state. -/
def ActionPanelState.isResponse : ActionPanelState → Bool
  | .Response _ _ _ _ => true
  | _ => false

/-- The output lines of a `Response` panel, `[]` otherwise. -/
def ActionPanelState.responseLines : ActionPanelState → List String
  | .Response _ _ lines _ => lines
  | _ => []

/-- The overall-success flag of a `Response` panel, `false` otherwise. -/
def ActionPanelState.responseSuccess : ActionPanelState → Bool
  | .Response _ _ _ success => success
  | _ => false

inductive Tab where
  | Dashboard
  | Nodes
  | Queues
  | Keys
  | Console
  | Logs
deriving Repr, DecidableEq

/-- `Tab::all`. -/
def Tab.all : List Tab := [.Dashboard, .Nodes, .Queues, .Keys, .Console, .Logs]

/-- Polling intervals; the `f32` field is modelled as a rational. -/
structure Intervals where
  queue_secs : Rat
  general_secs : Nat
deriving Repr, DecidableEq

/-- `Intervals::default`. -/
def Intervals.default : Intervals := ⟨1 / 2, 5⟩

/-- The shared application state.  The `tokio` `AbortHandle` carries no
observable data of its own, so `action_task_handle` only records its
presence; invoking `abort`, which every source site pairs with `take`,
is reflected in the transition system by discarding the remaining steps
of the background task.  `action_panel_scroll` is a `u16` in the
source; stores reduce modulo `2 ^ 16` where the source casts. -/
structure App where
  profiles : List Profile
  console_input : String
  active_profile : Nat
  current_tab : Tab
  banners : List String
  intervals : Intervals
  focus : Focus
  selected_worker : Nat
  worker_actions : List String
  selected_action : Nat
  action_panel_state : ActionPanelState
  confirmation_selection : Nat
  action_input_model_name : String
  action_input_cursor_position : Nat
  action_panel_scroll : Nat
  action_task_handle : Option Unit
  is_action_in_progress : Bool
  worker_versions : Option WorkerVersions
  worker_statuses : Option WorkerStatuses
  worker_connections : Option WorkerConnections
  worker_pings : Option WorkerPings
  worker_tags : Option WorkerTags
  queue_map : Option QueueMap
  auth_keys : Option AuthKeys
  generate_response : Option GenerateResponse
  console_output : List String
deriving Repr

/-- `App::new`. -/
def App.new (profiles : List Profile) : App where
  profiles := profiles
  console_input := ""
  active_profile := 0
  current_tab := .Dashboard
  banners := []
  intervals := Intervals.default
  focus := .WorkersList
  selected_worker := 0
  worker_actions := ["Pull model", "Delete model"]
  selected_action := 0
  action_panel_state := .None
  confirmation_selection := 0
  action_input_model_name := ""
  action_input_cursor_position := 0
  action_panel_scroll := 0
  action_task_handle := none
  is_action_in_progress := false
  worker_versions := none
  worker_statuses := none
  worker_connections := none
  worker_pings := none
  worker_tags := none
  queue_map := none
  auth_keys := none
  generate_response := none
  console_output := []

/-- `App::next_tab`. -/
def App.next_tab (a : App) : App :=
  match Tab.all.findIdx? (· = a.current_tab) with
  | some pos => { a with current_tab := Tab.all.getD ((pos + 1) % Tab.all.length) a.current_tab }
  | none => a

/-- `App::prev_tab`. -/
def App.prev_tab (a : App) : App :=
  match Tab.all.findIdx? (· = a.current_tab) with
  | some pos =>
    { a with current_tab := Tab.all.getD ((pos + Tab.all.length - 1) % Tab.all.length) a.current_tab }
  | none => a

/-- `App::add_banner`. -/
def App.add_banner (a : App) (msg : String) : App :=
  { a with banners := a.banners ++ [msg] }

/-- `App::dismiss_banner`. -/
def App.dismiss_banner (a : App) : App :=
  if a.banners.isEmpty then a else { a with banners := a.banners.tail }

/-- `App::clear_caches`: cancel any pending task (take the handle,
abort it, push a banner), reset the in-progress flag, clear every
cached snapshot, the console buffers, the panel state and the
confirmation choice. -/
def App.clear_caches (a : App) : App :=
  let a :=
    match a.action_task_handle with
    | some _ =>
      { a with action_task_handle := none,
               banners := a.banners ++ ["Cancelled active action task."] }
    | none => a
  { a with is_action_in_progress := false
           worker_versions := none
           worker_statuses := none
           worker_connections := none
           worker_pings := none
           worker_tags := none
           queue_map := none
           auth_keys := none
           generate_response := none
           console_output := []
           console_input := ""
           action_panel_state := .None
           confirmation_selection := 0 }

/-- `App::set_active_profile`. -/
def App.set_active_profile (a : App) (index : Nat) : App :=
  if index < a.profiles.length then ({ a with active_profile := index }).clear_caches else a

/-- `App::workers_len`. -/
def App.workers_len (a : App) : Nat :=
  (a.worker_statuses.map List.length).getD 0

/-- `App::focus_up`. -/
def App.focus_up (a : App) : App :=
  match a.focus with
  | .WorkersList =>
    if a.selected_worker > 0 then { a with selected_worker := a.selected_worker - 1 } else a
  | .ActionsList =>
    if a.selected_action > 0 then { a with selected_action := a.selected_action - 1 } else a
  | _ => a

/-- `App::focus_down`. -/
def App.focus_down (a : App) : App :=
  match a.focus with
  | .WorkersList =>
    if a.selected_worker < a.workers_len - 1 then
      { a with selected_worker := a.selected_worker + 1 }
    else a
  | .ActionsList =>
    if a.selected_action < a.worker_actions.length - 1 then
      { a with selected_action := a.selected_action + 1 }
    else a
  | _ => a

/-- `App::focus_right`, including its action-in-progress guard. -/
def App.focus_right (a : App) : App :=
  if a.is_action_in_progress ∧ a.focus ≠ .ActionPanelResponse then
    a.add_banner "Action in progress. Cannot change focus."
  else
    match a.focus with
    | .WorkersList => { a with focus := .ActionsList, selected_action := 0 }
    | .ActionsList =>
      match a.worker_actions.get? a.selected_action with
      | some "Pull model" =>
        { a with action_panel_state := .PullModel, focus := .ActionPanelInput,
                 action_input_model_name := "", action_input_cursor_position := 0,
                 action_panel_scroll := 0 }
      | some "Delete model" =>
        { a with action_panel_state := .DeleteModel, focus := .ActionPanelInput,
                 action_input_model_name := "", action_input_cursor_position := 0,
                 action_panel_scroll := 0 }
      | _ =>
        { a with focus := .GlobalView, action_panel_state := .None,
                 action_input_model_name := "", action_input_cursor_position := 0,
                 action_panel_scroll := 0 }
    | .GlobalView =>
      { a with focus := .WorkersList, action_panel_state := .None,
               action_input_model_name := "", action_input_cursor_position := 0,
               action_panel_scroll := 0 }
    | .ActionPanelInput =>
      { a with action_input_cursor_position := min (a.action_input_cursor_position + 1) a.action_input_model_name.length }
    | .ActionPanelConfirm =>
      if a.confirmation_selection = 0 then { a with confirmation_selection := 1 } else a
    | .ActionPanelResponse => a

/-- `App::focus_left`, including its action-in-progress guard. -/
def App.focus_left (a : App) : App :=
  if a.is_action_in_progress ∧ a.focus ≠ .ActionPanelResponse then
    a.add_banner "Action in progress. Cannot change focus."
  else
    match a.focus with
    | .ActionsList => { a with focus := .WorkersList }
    | .GlobalView =>
      { a with focus := .ActionsList, selected_action := 0, action_panel_state := .None,
               action_input_model_name := "", action_input_cursor_position := 0,
               action_panel_scroll := 0 }
    | .WorkersList => a
    | .ActionPanelInput =>
      { a with action_input_cursor_position := a.action_input_cursor_position - 1 }
    | .ActionPanelConfirm =>
      if a.confirmation_selection = 1 then { a with confirmation_selection := 0 } else a
    | .ActionPanelResponse =>
      let a :=
        match a.action_task_handle with
        | some _ =>
          { a with action_task_handle := none,
                   banners := a.banners ++ ["Action task aborted."] }
        | none => a
      { a with is_action_in_progress := false, action_panel_state := .None,
               focus := .ActionsList, action_input_model_name := "",
               action_input_cursor_position := 0, action_panel_scroll := 0 }

/-- `App::input_char_into_action_field`.  The source indexes bytes and
counts one per inserted character; the model works at character level,
which agrees on the ASCII inputs the specification exercises. -/
def App.input_char_into_action_field (a : App) (c : Char) : App :=
  let cs := a.action_input_model_name.toList
  let cs :=
    if a.action_input_cursor_position ≥ cs.length then cs ++ [c]
    else cs.take a.action_input_cursor_position ++ c :: cs.drop a.action_input_cursor_position
  { a with action_input_model_name := String.mk cs,
           action_input_cursor_position := a.action_input_cursor_position + 1 }

/-- `App::backspace_action_field`. -/
def App.backspace_action_field (a : App) : App :=
  if a.action_input_cursor_position > 0 then
    let i := a.action_input_cursor_position - 1
    let cs := a.action_input_model_name.toList
    { a with action_input_model_name := String.mk (cs.take i ++ cs.drop (i + 1)),
             action_input_cursor_position := i }
  else a

/-- `App::add_action_output_line`: append one output line and overwrite
the overall-success flag with the flag of this line; in any state other
than `Response` the source only logs to stderr and the application
state is unchanged. -/
def App.add_action_output_line (a : App) (line : String) (is_success : Bool) : App :=
  match a.action_panel_state with
  | .Response m t output_lines _ =>
    { a with action_panel_state := .Response m t (output_lines ++ [line]) is_success }
  | _ => a

/-! ## Key events (the crossterm subset the handler distinguishes,
src/events/handler.rs) -/

inductive KeyCode where
  | Char (c : Char)
  | Enter
  | Esc
  | Backspace
  | Left
  | Right
  | Up
  | Down
  | Other
deriving Repr, DecidableEq

/-- A key press: its code and whether `key.modifiers.is_empty()`. -/
structure KeyEvent where
  code : KeyCode
  noModifiers : Bool
deriving Repr, DecidableEq

/-- Outcome of the network interaction performed by the Console-tab
Enter branch of `on_enter_main_view` (client construction and
`generate`); chosen by the environment, since it depends on the remote
service. -/
inductive ConsoleEnv where
  | clientErr (e : String)
  | genErr (e : String)
  | genOk (raw : Json)
deriving Repr

/-- Embedding of `serde_json::from_value::<GenerateResponse>`: a
`result` string field is required, remaining fields are flattened into
`extra`. -/
def fromValueGenerate (j : Json) : Option GenerateResponse :=
  match j with
  | .obj fields =>
    match fields.lookup "result" with
    | some (.str s) => some ⟨s, fields.filter (fun kv => kv.1 ≠ "result")⟩
    | _ => none
  | _ => none

/-- `on_enter_main_view` (src/events/handler.rs, lines 347-407).  The
Console branch reads `queue_map` only to pick the request model, which
does not affect the state; its network outcome is `env`. -/
def onEnterMainView (a : App) (env : ConsoleEnv) : App :=
  if a.current_tab = .Dashboard then
    if a.focus = .ActionsList then
      match a.worker_actions.get? a.selected_action with
      | some "Pull model" =>
        { a with action_panel_state := .PullModel, focus := .ActionPanelInput,
                 action_input_model_name := "", action_input_cursor_position := 0 }
      | some "Delete model" =>
        { a with action_panel_state := .DeleteModel, focus := .ActionPanelInput,
                 action_input_model_name := "", action_input_cursor_position := 0 }
      | _ => a
    else a
  else if a.current_tab = .Console then
    match env with
    | .clientErr e => a.add_banner ("Can't contact HiveCore: " ++ e)
    | .genErr e => a.add_banner ("Inference failed: " ++ e)
    | .genOk raw =>
      match fromValueGenerate raw with
      | some resp => { a with generate_response := some resp, console_output := [resp.result] }
      | none => a
  else a

/-- Result of handling one `Input` event: the updated state, whether a
background action task was spawned by this event, and whether the event
loop exits (`break` or the early `return` of the unexpected-state
branch). -/
structure HandleResult where
  app : App
  spawned : Bool
  quit : Bool

/-- The Escape branch inside the action-in-progress guard
(src/events/handler.rs, lines 49-63): take and abort the handle, clear
the flag, reset the panel and push a banner. -/
def cancelActionFromGuard (a : App) : App :=
  let a := { a with action_task_handle := none }
  { a with is_action_in_progress := false, action_panel_state := .None,
           focus := .ActionsList, action_input_model_name := "",
           action_input_cursor_position := 0, action_panel_scroll := 0,
           banners := a.banners ++ ["Action cancelled by user."] }

/-- Dismissal of the response panel (src/events/handler.rs, lines
251-274; the `Esc` arm and the catch-all arm have identical bodies). -/
def dismissResponsePanel (a : App) : App :=
  let a := { a with action_task_handle := none }
  { a with is_action_in_progress := false, action_panel_state := .None,
           focus := .ActionsList, action_input_model_name := "",
           action_input_cursor_position := 0, action_panel_scroll := 0,
           banners := a.banners ++ ["Response dismissed, action aborted if running."] }

/-- The Escape branches of the input and confirmation panels
(src/events/handler.rs, lines 110-117 and 237-243, identical bodies). -/
def resetPanelToActionsList (a : App) : App :=
  { a with action_panel_state := .None, focus := .ActionsList,
           action_input_model_name := "", action_input_cursor_position := 0,
           action_panel_scroll := 0 }

/-- The Enter branch of the input panel (src/events/handler.rs, lines
90-109).  In the unexpected-state arm the source pushes a banner,
resets focus and panel, and `return`s from the whole event loop, which
the `quit` flag records. -/
def inputEnter (a : App) : HandleResult :=
  if a.action_input_model_name ≠ "" then
    match a.action_panel_state with
    | .PullModel =>
      ⟨{ a with action_panel_state := .Confirmation a.action_input_model_name .Pull,
                focus := .ActionPanelConfirm, confirmation_selection := 0 }, false, false⟩
    | .DeleteModel =>
      ⟨{ a with action_panel_state := .Confirmation a.action_input_model_name .Delete,
                focus := .ActionPanelConfirm, confirmation_selection := 0 }, false, false⟩
    | _ =>
      let a := a.add_banner "Unexpected action state. Please restart action."
      ⟨{ a with focus := .ActionsList, action_panel_state := .None }, false, true⟩
  else ⟨a.add_banner "Model name cannot be empty.", false, false⟩

/-- The Enter branch of the confirmation panel, first critical section
(src/events/handler.rs, lines 141-161): seed the `Response` panel with
the placeholder line, move focus, raise the in-progress flag, release
the lock.  Spawning the task and storing its abort handle happen after
this critical section and are separate transition-system steps. -/
def commitConfirmation (a : App) : App :=
  let model :=
    match a.action_panel_state with
    | .Confirmation m _ => m
    | _ => ""
  let t :=
    match a.action_panel_state with
    | .Confirmation _ t => t
    | _ => ActionType.Pull
  { a with action_panel_state := .Response model t ["Initiating action..."] true,
           focus := .ActionPanelResponse, is_action_in_progress := true }

/-- One `Event::Input` dispatch of `handle_events` (src/events/handler.rs,
lines 40-278), as a function of the state observed in its critical
sections. -/
def handleInput (a : App) (k : KeyEvent) (env : ConsoleEnv) : HandleResult :=
  if a.is_action_in_progress ∧ a.focus ≠ .ActionPanelResponse then
    if k.code = .Char 'q' then ⟨a, false, true⟩
    else if k.code = .Esc ∧ (a.focus = .ActionPanelInput ∨ a.focus = .ActionPanelConfirm) then
      ⟨cancelActionFromGuard a, false, false⟩
    else ⟨a.add_banner "Action in progress. Input ignored.", false, false⟩
  else
    match a.focus with
    | .WorkersList | .ActionsList | .GlobalView =>
      match k.code with
      | .Char 'q' => ⟨a, false, true⟩
      | .Left => ⟨a.focus_left, false, false⟩
      | .Char 'a' => ⟨a.focus_left, false, false⟩
      | .Right => ⟨a.focus_right, false, false⟩
      | .Char 'd' => ⟨a.focus_right, false, false⟩
      | .Up => ⟨a.focus_up, false, false⟩
      | .Char 'w' => ⟨a.focus_up, false, false⟩
      | .Down => ⟨a.focus_down, false, false⟩
      | .Char 's' => ⟨a.focus_down, false, false⟩
      | .Char 'r' => ⟨a.clear_caches, false, false⟩
      | .Enter => ⟨onEnterMainView a env, false, false⟩
      | .Backspace =>
        ⟨if a.current_tab = .Console then
            { a with console_input := String.mk a.console_input.toList.dropLast }
          else a, false, false⟩
      | .Char c =>
        ⟨if a.current_tab = .Console then { a with console_input := a.console_input.push c }
          else a, false, false⟩
      | _ => ⟨a, false, false⟩
    | .ActionPanelInput =>
      match k.code with
      | .Enter => inputEnter a
      | .Esc => ⟨resetPanelToActionsList a, false, false⟩
      | .Backspace => ⟨a.backspace_action_field, false, false⟩
      | .Left => ⟨a.focus_left, false, false⟩
      | .Right => ⟨a.focus_right, false, false⟩
      | .Char c => ⟨if k.noModifiers then a.input_char_into_action_field c else a, false, false⟩
      | _ => ⟨a, false, false⟩
    | .ActionPanelConfirm =>
      match k.code with
      | .Left => ⟨{ a with confirmation_selection := 1 - a.confirmation_selection }, false, false⟩
      | .Right => ⟨{ a with confirmation_selection := 1 - a.confirmation_selection }, false, false⟩
      | .Enter => ⟨commitConfirmation a, true, false⟩
      | .Esc => ⟨resetPanelToActionsList a, false, false⟩
      | _ => ⟨a, false, false⟩
    | .ActionPanelResponse =>
      match k.code with
      | .Up => ⟨a.focus_up, false, false⟩
      | .Char 'w' => ⟨a.focus_up, false, false⟩
      | .Down => ⟨a.focus_down, false, false⟩
      | .Char 's' => ⟨a.focus_down, false, false⟩
      | _ => ⟨dismissResponsePanel a, false, false⟩

/-! ## The spawned background task (src/events/handler.rs, lines
165-231, and the streaming bodies in src/clients/infer_client.rs)

Each `app_arc.lock().await` of the task is one atomic critical
section; between two of them, event handling may interleave.  The task
is therefore a sequence of atomic operations with one runtime branch on
`confirmation_selection` (the `should_proceed` read, lines 182-185). -/

inductive AtomicOp where
  | bannerOp (msg : String)
  | lineOp (line : String) (success : Bool)
  | clientFailOp (bannerMsg lineMsg : String)
  | finalizeOp (apiErr : Option String)
deriving Repr, DecidableEq

/-- The state mutation of one critical section of the background task:
`bannerOp` is an `add_banner` call, `lineOp` an `add_action_output_line`
call, `clientFailOp` the client-construction failure section (lines
172-176: banner, failed line, clear flag), and `finalizeOp` the final
section (lines 214-230: push the transport-error line and flip the
overall flag if the operation failed, set the scroll position, clear
the in-progress flag). -/
def applyOp (a : App) : AtomicOp → App
  | .bannerOp m => a.add_banner m
  | .lineOp l s => a.add_action_output_line l s
  | .clientFailOp bm lm =>
    { (a.add_banner bm).add_action_output_line lm false with is_action_in_progress := false }
  | .finalizeOp apiErr =>
    let a :=
      match a.action_panel_state with
      | .Response m t lines success =>
        let p :=
          match apiErr with
          | some e => (lines ++ [e], false)
          | none => (lines, success)
        { a with action_panel_state := .Response m t p.1 p.2,
                 action_panel_scroll := (p.1.length - 1) % 65536 }
      | _ => a
    { a with is_action_in_progress := false }

/-- The remaining program of the background task: a list of critical
sections, with one runtime branch on the confirmation choice. -/
inductive TaskProg where
  | done
  | seq (op : AtomicOp) (rest : TaskProg)
  | branchChoice (ifProceed ifAbort : TaskProg)
deriving Repr, DecidableEq

/-- Chain a list of operations in front of a continuation. -/
def seqOps : List AtomicOp → TaskProg → TaskProg
  | [], k => k
  | op :: ops, k => .seq op (seqOps ops k)

/-- The tail every task run ends with: the finalization section. -/
def finalizeTask (apiErr : Option String) : TaskProg :=
  .seq (.finalizeOp apiErr) .done

/-- The branch taken when the confirmation choice is not "proceed"
(src/events/handler.rs, lines 208-210): one cancelled-by-user output
line, then finalization with no transport error. -/
def abortBranchTask : TaskProg :=
  .seq (.lineOp "Action cancelled by user." true) (finalizeTask none)

/-- The branch taken when the confirmation choice is "proceed": the
streaming writes of the remote operation, then finalization. -/
def proceedBranchTask (ops : List AtomicOp) (apiErr : Option String) : TaskProg :=
  seqOps ops (finalizeTask apiErr)

/-- Run a task program to completion with no interleaved foreground
activity. -/
def runProg : TaskProg → App → App
  | .done, a => a
  | .seq op rest, a => runProg rest (applyOp a op)
  | .branchChoice p q, a =>
    if a.confirmation_selection = 0 then runProg p a else runProg q a

/-! ### The critical sections `pull_model` executes for a given stream
(src/clients/infer_client.rs, lines 76-159) -/

/-- The critical sections for one complete parsed-or-failed line (lines
98-121): on success one output line; on a falsey record a banner then
the output line; on a decode failure the failed output line then a
banner.  Also returns the effect of the line on `overall_success`. -/
def pullLineOps (trimmed : String) : List AtomicOp × Bool :=
  match parseJson trimmed with
  | .ok j =>
    let message := jsonMessage j
    if jsonLineSuccess j then ([.lineOp message true], true)
    else ([.bannerOp ("Pull Error: " ++ message), .lineOp message false], false)
  | .error e =>
    let msg := "Non-JSON line: " ++ trimmed ++ " (Parse Error: " ++ e ++ ")"
    ([.lineOp msg false, .bannerOp msg], false)

/-- The critical sections for a batch of drained complete lines, with
the conjunction of their success effects. -/
def pullCompleteLinesOps : List (List Char) → List AtomicOp × Bool
  | [] => ([], true)
  | l :: ls =>
    let rest := pullCompleteLinesOps ls
    let t := trimChars l
    if t.isEmpty then rest
    else
      let p := pullLineOps (String.mk t)
      (p.1 ++ rest.1, p.2 && rest.2)

/-- The critical sections emitted while folding the received chunks
through the carry-over buffer. -/
def pullChunksOps : List Char → List (List Char) → List AtomicOp × Bool × List Char
  | buf, [] => ([], true, buf)
  | buf, c :: cs =>
    let bl := breakLines (buf ++ c)
    let p := pullCompleteLinesOps bl.1
    let q := pullChunksOps bl.2 cs
    (p.1 ++ q.1, p.2 && q.2.1, q.2.2)

/-- The critical sections for the final unterminated line (lines
126-151): no banner on a falsey parsed record, unlike the complete-line
case. -/
def pullFinalOps (trimmed : String) : List AtomicOp × Bool :=
  match parseJson trimmed with
  | .ok j => ([.lineOp (jsonMessage j) (jsonLineSuccess j)], jsonLineSuccess j)
  | .error e =>
    let msg := "Non-JSON final line: " ++ trimmed ++ " (Parse Error: " ++ e ++ ")"
    ([.lineOp msg false, .bannerOp msg], false)

/-- Remainder handling at end of stream (lines 126-151). -/
def pullRemainderOps (buf : List Char) : List AtomicOp × Bool :=
  if buf.isEmpty then ([], true)
  else
    let t := trimChars buf
    if t.isEmpty then ([], true) else pullFinalOps (String.mk t)

/-- All critical sections of a completed `pull_model` run over the given
chunks, ending with the final summary line (lines 153-159).
`delete_model` is textually identical up to its banner and summary
labels; every claim exercises the pull flow. -/
def pullOps (chunks : List (List Char)) : List AtomicOp :=
  let r := pullChunksOps [] chunks
  let f := pullRemainderOps r.2.2
  let overall := r.2.1 && f.2
  r.1 ++ f.1 ++
    [.lineOp
      (if overall then "Model pull completed successfully." else "Model pull completed with errors.")
      overall]

/-! ## Tick events (src/events/handler.rs, lines 280-307)

Each successful fetch populates one cached field under its own lock
acquisition; failures leave the previous value untouched.  The fetch
outcomes are chosen by the environment. -/

structure TickEnv where
  statuses : Option WorkerStatuses
  connections : Option WorkerConnections
  pings : Option WorkerPings
  versions : Option WorkerVersions
  tags : Option WorkerTags

/-- Apply one `Event::Tick`: on the Dashboard tab, store each snapshot
the environment delivered. -/
def applyTick (a : App) (e : TickEnv) : App :=
  if a.current_tab = .Dashboard then
    let a := match e.statuses with | some v => { a with worker_statuses := some v } | none => a
    let a := match e.connections with | some v => { a with worker_connections := some v } | none => a
    let a := match e.pings with | some v => { a with worker_pings := some v } | none => a
    let a := match e.versions with | some v => { a with worker_versions := some v } | none => a
    let a := match e.tags with | some v => { a with worker_tags := some v } | none => a
    a
  else a

/-! ## The interleaved system

One task drives the event loop; at most one background action task has
pending critical sections.  Between the commit critical section and the
handle-storing one (the source drops the lock, spawns, then re-locks,
lines 161-235) no further event is dispatched, but background sections
may run; `pendingStore` records that window. -/

structure Sys where
  app : App
  task : TaskProg
  pendingStore : Bool

/-- The streaming critical sections only push banners and output
lines. -/
def isWriteOp : AtomicOp → Bool
  | .bannerOp _ => true
  | .lineOp _ _ => true
  | _ => false

/-- The programs the spawn site can produce: either client construction
fails (one `clientFailOp` section), or the task reads the confirmation
choice and branches; on "proceed" it performs the streaming writes of
the remote pull/delete operation followed by finalization (with a
transport-error message when the operation returned `Err`), and on any
other choice the cancelled-by-user branch. -/
inductive ValidTask : TaskProg → Prop
  | clientFail (bannerMsg lineMsg : String) :
      ValidTask (.seq (.clientFailOp bannerMsg lineMsg) .done)
  | run (ops : List AtomicOp) (apiErr : Option String)
      (h : ∀ op ∈ ops, isWriteOp op = true) :
      ValidTask (.branchChoice (proceedBranchTask ops apiErr) abortBranchTask)

/-- Successor after dispatching one `Input` event.  Every source site
that `take`s the abort handle also aborts it, so a dispatch that
removes a present handle discards the remaining task sections. -/
def sysAfterInput (s : Sys) (k : KeyEvent) (env : ConsoleEnv) (prog : TaskProg) : Sys :=
  let r := handleInput s.app k env
  { app := r.app
    task :=
      if r.spawned then prog
      else if s.app.action_task_handle.isSome && r.app.action_task_handle.isNone then .done
      else s.task
    pendingStore := r.spawned }

/-- Successor after the handle-storing critical section (lines 234-235). -/
def sysAfterStore (s : Sys) : Sys :=
  { app := { s.app with action_task_handle := some () }, task := s.task, pendingStore := false }

/-- Successor after one background critical section. -/
def sysAfterBgOp (s : Sys) (op : AtomicOp) (rest : TaskProg) : Sys :=
  { app := applyOp s.app op, task := rest, pendingStore := s.pendingStore }

/-- Successor after the background task reads `should_proceed` (lines
182-185, a read-only critical section). -/
def sysAfterBranch (s : Sys) (p q : TaskProg) : Sys :=
  { s with task := if s.app.confirmation_selection = 0 then p else q }

/-- Successor after one `Event::Tick`. -/
def sysAfterTick (s : Sys) (e : TickEnv) : Sys :=
  { s with app := applyTick s.app e }

/-- One atomic step of the interleaved system. -/
inductive Step : Sys → Sys → Prop
  | input (s : Sys) (k : KeyEvent) (env : ConsoleEnv) (prog : TaskProg)
      (hps : s.pendingStore = false)
      (hv : (handleInput s.app k env).spawned = true → ValidTask prog) :
      Step s (sysAfterInput s k env prog)
  | store (s : Sys) (hps : s.pendingStore = true) : Step s (sysAfterStore s)
  | bgOp (s : Sys) (op : AtomicOp) (rest : TaskProg) (h : s.task = .seq op rest) :
      Step s (sysAfterBgOp s op rest)
  | bgBranch (s : Sys) (p q : TaskProg) (h : s.task = .branchChoice p q) :
      Step s (sysAfterBranch s p q)
  | tick (s : Sys) (e : TickEnv) (hps : s.pendingStore = false) :
      Step s (sysAfterTick s e)

/-- States reachable from a fresh `App::new` with no task. -/
inductive Reachable : Sys → Prop
  | init (profiles : List Profile) : Reachable ⟨App.new profiles, .done, false⟩
  | step {s t : Sys} (hr : Reachable s) (hs : Step s t) : Reachable t

/-! ## A concrete run: the pull-model scenario

The operator moves focus to the action list, selects "Pull model",
types `llama3`, accepts it, commits the confirmation with the default
"proceed" choice, the handle is stored, and the spawned task streams
the two-record response to completion. -/

/-- A loaded profile (its contents never influence the modelled
state). -/
def defaultProfile : Profile := ⟨"local", "localhost", 3000, 3001, "", ""⟩

/-- An unmodified character key press. -/
def pressChar (c : Char) : KeyEvent := ⟨.Char c, true⟩

/-- The Enter key. -/
def pressEnter : KeyEvent := ⟨.Enter, true⟩

/-- The right-arrow key. -/
def pressRight : KeyEvent := ⟨.Right, true⟩

/-- A console-environment value for events that never reach the Console
branch. -/
def idleConsoleEnv : ConsoleEnv := .clientErr ""

/-- The bytes of the remote stream in the end-to-end scenario: two
newline-terminated JSON records. -/
def c1StreamBytes : List Char :=
  ("\x7b\"status\":\"pulling manifest\"\x7d\n\x7b\"status\":\"success\"\x7d\n").toList

/-- The streaming critical sections of `pull_model` for that stream. -/
def c1TaskOps : List AtomicOp := pullOps [c1StreamBytes]

/-- The program of the spawned task in the scenario. -/
def c1TaskProg : TaskProg := .branchChoice (proceedBranchTask c1TaskOps none) abortBranchTask

/-- Initial system state. -/
def ct0 : Sys := ⟨App.new [defaultProfile], .done, false⟩

/-- After focusing the action list. -/
def ct1 : Sys := sysAfterInput ct0 pressRight idleConsoleEnv .done

/-- After selecting "Pull model". -/
def ct2 : Sys := sysAfterInput ct1 pressEnter idleConsoleEnv .done

/-- After typing the first character of the model name. -/
def ct3 : Sys := sysAfterInput ct2 (pressChar 'l') idleConsoleEnv .done

/-- After typing the second character. -/
def ct4 : Sys := sysAfterInput ct3 (pressChar 'l') idleConsoleEnv .done

/-- After typing the third character. -/
def ct5 : Sys := sysAfterInput ct4 (pressChar 'a') idleConsoleEnv .done

/-- After typing the fourth character. -/
def ct6 : Sys := sysAfterInput ct5 (pressChar 'm') idleConsoleEnv .done

/-- After typing the fifth character. -/
def ct7 : Sys := sysAfterInput ct6 (pressChar 'a') idleConsoleEnv .done

/-- After typing the sixth character: the input buffer holds `llama3`. -/
def ct8 : Sys := sysAfterInput ct7 (pressChar '3') idleConsoleEnv .done

/-- After accepting the model name: the confirmation panel, with the
default "proceed" choice. -/
def ct9 : Sys := sysAfterInput ct8 pressEnter idleConsoleEnv .done

/-- After committing the confirmation: the task is spawned, its handle
not yet stored. -/
def ct10 : Sys := sysAfterInput ct9 pressEnter idleConsoleEnv c1TaskProg

/-- After the handle-storing critical section. -/
def ct11 : Sys := sysAfterStore ct10

/-- After the task reads the confirmation choice and proceeds. -/
def ct12 : Sys := sysAfterBranch ct11 (proceedBranchTask c1TaskOps none) abortBranchTask

/-- Remaining program after the first streamed line. -/
def ctProg2 : TaskProg :=
  seqOps [.lineOp "success" true, .lineOp "Model pull completed successfully." true]
    (finalizeTask none)

/-- Remaining program after the second streamed line. -/
def ctProg3 : TaskProg :=
  seqOps [.lineOp "Model pull completed successfully." true] (finalizeTask none)

/-- After the first streamed record is written. -/
def ct13 : Sys := sysAfterBgOp ct12 (.lineOp "pulling manifest" true) ctProg2

/-- After the second streamed record is written. -/
def ct14 : Sys := sysAfterBgOp ct13 (.lineOp "success" true) ctProg3

/-- After the final summary line is written. -/
def ct15 : Sys :=
  sysAfterBgOp ct14 (.lineOp "Model pull completed successfully." true) (finalizeTask none)

/-- After the finalization critical section: the task is complete. -/
def ct16 : Sys := sysAfterBgOp ct15 (.finalizeOp none) .done

/-- Modelled from the spec (section 4.5): "a success flag (true unless
an `error` field is present and truthy)" — a record is a failure
exactly when the `error` field is present and neither null nor
`false`.  Stated as a definition of its own so it can be compared with
`jsonLineSuccess`, the flag the source actually computes. -/
def specLineIsFailure (j : Json) : Bool :=
  match j.get "error" with
  | none => false
  | some .null => false
  | some (.bool false) => false
  | some _ => true

/-- The spec-modelled failure verdict for a whole line: decode failures
are failures as well. -/
def specFailureOfLine (s : String) : Bool :=
  match parseJson s with
  | .ok j => specLineIsFailure j
  | .error _ => true

/-- The invariant of the interleaved system: a present abort handle
means the panel shows the `Running/Response` state and focus is on it,
and the same holds during the window between the commit critical
section and the handle store. -/
def SysInv (s : Sys) : Prop :=
  (s.app.action_task_handle.isSome = true →
    s.app.action_panel_state.isResponse = true ∧ s.app.focus = Focus.ActionPanelResponse) ∧
  (s.pendingStore = true →
    s.app.action_panel_state.isResponse = true ∧ s.app.focus = Focus.ActionPanelResponse)

/-! ## Concrete inputs used to exercise the theorems -/

/-- The decoded line of testable property 2, success side. -/
def downloadingLine : String := "\x7b\"status\":\"downloading\",\"error\":null\x7d"

/-- The decoded line of testable property 2, error side. -/
def notFoundLine : String := "\x7b\"error\":\"not found\"\x7d"

/-- The scenario bytes split at awkward places, including mid-token. -/
def c3ChunksA : List (List Char) :=
  [("\x7b\"sta").toList,
   ("tus\":\"pulling manifest\"\x7d\n\x7b\"status\":\"succ").toList,
   ("ess\"\x7d\n").toList]

/-- The scenario bytes delivered as a single chunk. -/
def c3ChunksB : List (List Char) := [c1StreamBytes]

/-- A line that fails structured decode. -/
def c7Bad : List Char := ("not json at all").toList

/-- A well-formed stream following the failing line. -/
def c7Rest : List (List Char) := [("\x7b\"status\":\"ok\"\x7d\n").toList]

/-- A state with an action in progress and focus away from the response
panel. -/
def c5App : App := { App.new [] with is_action_in_progress := true }

/-- A state in the `AwaitingInput` step with a typed model name. -/
def c6App : App :=
  { App.new [] with focus := .ActionPanelInput, action_panel_state := .PullModel,
                    action_input_model_name := "llama3", action_input_cursor_position := 6 }

/-- A running response panel whose confirmation choice is "abort". -/
def c8App : App :=
  { App.new [] with confirmation_selection := 1,
                    action_panel_state := .Response "llama3" .Pull ["Initiating action..."] true,
                    focus := .ActionPanelResponse, is_action_in_progress := true }

/-- A state with populated caches and a pending task handle. -/
def c9App : App :=
  { App.new [defaultProfile, defaultProfile] with
      action_task_handle := some (), is_action_in_progress := true,
      worker_statuses := some [("node", .Verified)], queue_map := some [("m", 2)],
      worker_versions := some [("node", ⟨"1", "2"⟩)], auth_keys := some [] }

end HiveTUI

namespace HiveTUI

/-! ## Lemmas: the line-splitting buffer -/

theorem breakLines_eq_of_not_mem {l : List Char} (h : '\n' ∉ l) : breakLines l = ([], l) := by
  induction l with
  | nil => rfl
  | cons c cs ih =>
    have hc : ¬c = '\n' := fun e => h (e ▸ List.mem_cons_self c cs)
    have hcs : '\n' ∉ cs := fun m => h (List.mem_cons_of_mem _ m)
    simp [breakLines, ih hcs, hc]

theorem breakLines_snd_not_mem (l : List Char) : '\n' ∉ (breakLines l).2 := by
  induction l with
  | nil => simp [breakLines]
  | cons c cs ih =>
    by_cases hc : c = '\n'
    · simpa [breakLines, hc] using ih
    · rcases hp : breakLines cs with ⟨ls, r⟩
      rw [hp] at ih
      cases ls with
      | nil =>
        simp only [breakLines, hp, hc, if_false, List.mem_cons]
        simp only [List.mem_cons] at ih ⊢
        rintro (h1 | h1)
        · exact hc h1.symm
        · exact ih h1
      | cons l0 ls2 => simpa [breakLines, hp, hc] using ih

theorem breakLines_append (xs ys : List Char) :
    breakLines (xs ++ ys) =
      ((breakLines xs).1 ++ (breakLines ((breakLines xs).2 ++ ys)).1,
       (breakLines ((breakLines xs).2 ++ ys)).2) := by
  induction xs with
  | nil => simp [breakLines]
  | cons c cs ih =>
    by_cases hc : c = '\n'
    · simp [breakLines, hc, ih]
    · rcases hp : breakLines cs with ⟨ls, r⟩
      rw [hp] at ih
      cases ls with
      | nil =>
        rcases hq : breakLines (r ++ ys) with ⟨ls2, r2⟩
        rw [hq] at ih
        cases ls2 with
        | nil => simp [breakLines, hc, hp, hq, ih]
        | cons y ys2 => simp [breakLines, hc, hp, hq, ih]
      | cons l0 ls2 => simp [breakLines, hc, hp, ih]

theorem breakLines_terminated {l : List Char} (h : '\n' ∉ l) :
    breakLines (l ++ ['\n']) = ([l], []) := by
  induction l with
  | nil => simp [breakLines]
  | cons c cs ih =>
    have hc : ¬c = '\n' := fun e => h (e ▸ List.mem_cons_self c cs)
    have hcs : '\n' ∉ cs := fun m => h (List.mem_cons_of_mem _ m)
    simp [breakLines, ih hcs, hc]

/-! ## Lemmas: chunking invariance of the ingestion loop -/

theorem runChunks_join (cs : List (List Char)) (buf : List Char) (hb : '\n' ∉ buf) :
    runChunks buf cs =
      ((breakLines (buf ++ cs.flatten)).1.filterMap processCompleteLine,
       (breakLines (buf ++ cs.flatten)).2) := by
  induction cs generalizing buf with
  | nil => simp [runChunks, breakLines_eq_of_not_mem hb]
  | cons c cs ih =>
    simp only [runChunks, chunkStep]
    rw [ih _ (breakLines_snd_not_mem _), List.flatten_cons, ← List.append_assoc,
      breakLines_append (buf ++ c) cs.flatten]
    simp

theorem streamRecords_eq_processAll (cs : List (List Char)) :
    streamRecords cs = processAllBytes cs.flatten := by
  have h := runChunks_join cs [] (by simp)
  simp [streamRecords, processAllBytes, h]

/-! ## Lemmas: which fields each state operation can touch -/

theorem add_banner_handle (a : App) (m : String) :
    (a.add_banner m).action_task_handle = a.action_task_handle := rfl

theorem add_banner_focus (a : App) (m : String) :
    (a.add_banner m).focus = a.focus := rfl

theorem add_banner_panel (a : App) (m : String) :
    (a.add_banner m).action_panel_state = a.action_panel_state := rfl

theorem focus_up_handle (a : App) :
    (a.focus_up).action_task_handle = a.action_task_handle := by
  unfold App.focus_up
  split <;> (try split) <;> rfl

theorem focus_down_handle (a : App) :
    (a.focus_down).action_task_handle = a.action_task_handle := by
  unfold App.focus_down
  split <;> (try split) <;> rfl

theorem focus_right_handle (a : App) :
    (a.focus_right).action_task_handle = a.action_task_handle := by
  unfold App.focus_right
  split
  · rfl
  · split <;> (try split) <;> rfl

theorem focus_left_handle_none (a : App) (h : a.action_task_handle = none) :
    (a.focus_left).action_task_handle = none := by
  unfold App.focus_left
  split
  · exact h
  · split <;> (try split) <;> simp_all

theorem clear_caches_handle (a : App) :
    (a.clear_caches).action_task_handle = none := by
  unfold App.clear_caches
  split <;> simp_all

theorem onEnterMainView_handle (a : App) (env : ConsoleEnv) :
    (onEnterMainView a env).action_task_handle = a.action_task_handle := by
  unfold onEnterMainView
  split
  · split
    · split <;> rfl
    · rfl
  · split
    · cases env with
      | clientErr e => rfl
      | genErr e => rfl
      | genOk raw =>
        simp only []
        split <;> rfl
    · rfl

theorem input_char_handle (a : App) (c : Char) :
    (a.input_char_into_action_field c).action_task_handle = a.action_task_handle := rfl

theorem backspace_handle (a : App) :
    (a.backspace_action_field).action_task_handle = a.action_task_handle := by
  unfold App.backspace_action_field
  split <;> rfl

theorem resetPanel_handle (a : App) :
    (resetPanelToActionsList a).action_task_handle = a.action_task_handle := rfl

theorem commitConfirmation_handle (a : App) :
    (commitConfirmation a).action_task_handle = a.action_task_handle := rfl

theorem cancelActionFromGuard_handle (a : App) :
    (cancelActionFromGuard a).action_task_handle = none := rfl

theorem dismissResponsePanel_handle (a : App) :
    (dismissResponsePanel a).action_task_handle = none := rfl

theorem inputEnter_handle (a : App) :
    (inputEnter a).app.action_task_handle = a.action_task_handle := by
  unfold inputEnter
  split
  · split <;> rfl
  · rfl

theorem add_action_output_line_handle (a : App) (l : String) (s : Bool) :
    (a.add_action_output_line l s).action_task_handle = a.action_task_handle := by
  unfold App.add_action_output_line
  split <;> rfl

theorem add_action_output_line_focus (a : App) (l : String) (s : Bool) :
    (a.add_action_output_line l s).focus = a.focus := by
  unfold App.add_action_output_line
  split <;> rfl

theorem add_action_output_line_isResponse (a : App) (l : String) (s : Bool) :
    (a.add_action_output_line l s).action_panel_state.isResponse =
      a.action_panel_state.isResponse := by
  unfold App.add_action_output_line
  split
  · next m t lines succ heq => simp [heq, ActionPanelState.isResponse]
  · rfl

theorem applyOp_handle (a : App) (op : AtomicOp) :
    (applyOp a op).action_task_handle = a.action_task_handle := by
  cases op with
  | bannerOp m => rfl
  | lineOp l s => exact add_action_output_line_handle a l s
  | clientFailOp bm lm =>
    simp [applyOp, add_action_output_line_handle, add_banner_handle]
  | finalizeOp apiErr =>
    simp only [applyOp]
    split <;> rfl

theorem applyOp_focus (a : App) (op : AtomicOp) :
    (applyOp a op).focus = a.focus := by
  cases op with
  | bannerOp m => rfl
  | lineOp l s => exact add_action_output_line_focus a l s
  | clientFailOp bm lm =>
    simp [applyOp, add_action_output_line_focus, add_banner_focus]
  | finalizeOp apiErr =>
    simp only [applyOp]
    split <;> rfl

theorem applyOp_isResponse (a : App) (op : AtomicOp) :
    (applyOp a op).action_panel_state.isResponse = a.action_panel_state.isResponse := by
  cases op with
  | bannerOp m => rfl
  | lineOp l s => exact add_action_output_line_isResponse a l s
  | clientFailOp bm lm =>
    simp [applyOp]
    rw [add_action_output_line_isResponse, add_banner_panel]
  | finalizeOp apiErr =>
    simp only [applyOp]
    split
    · next m t lines succ heq => simp [heq, ActionPanelState.isResponse]
    · rfl

theorem applyTick_handle (a : App) (e : TickEnv) :
    (applyTick a e).action_task_handle = a.action_task_handle := by
  unfold applyTick
  split
  · cases e.statuses <;> cases e.connections <;> cases e.pings <;> cases e.versions <;>
      cases e.tags <;> rfl
  · rfl

theorem applyTick_focus (a : App) (e : TickEnv) :
    (applyTick a e).focus = a.focus := by
  unfold applyTick
  split
  · cases e.statuses <;> cases e.connections <;> cases e.pings <;> cases e.versions <;>
      cases e.tags <;> rfl
  · rfl

theorem applyTick_panel (a : App) (e : TickEnv) :
    (applyTick a e).action_panel_state = a.action_panel_state := by
  unfold applyTick
  split
  · cases e.statuses <;> cases e.connections <;> cases e.pings <;> cases e.versions <;>
      cases e.tags <;> rfl
  · rfl

theorem focus_up_id_of_response (a : App) (h : a.focus = .ActionPanelResponse) :
    a.focus_up = a := by
  unfold App.focus_up
  rw [h]

theorem focus_down_id_of_response (a : App) (h : a.focus = .ActionPanelResponse) :
    a.focus_down = a := by
  unfold App.focus_down
  rw [h]

/-! ## Lemmas: event dispatch and the system invariant -/

theorem hi_handle_none (a : App) (k : KeyEvent) (env : ConsoleEnv)
    (h : a.action_task_handle = none) :
    (handleInput a k env).app.action_task_handle = none := by
  unfold handleInput
  split
  · split
    · exact h
    · split
      · exact cancelActionFromGuard_handle a
      · exact h
  · split <;>
      (split <;>
        first
          | exact h
          | exact dismissResponsePanel_handle a
          | exact clear_caches_handle a
          | exact focus_left_handle_none a h
          | (rw [focus_right_handle]; exact h)
          | (rw [focus_up_handle]; exact h)
          | (rw [focus_down_handle]; exact h)
          | (rw [onEnterMainView_handle]; exact h)
          | (rw [inputEnter_handle]; exact h)
          | (rw [backspace_handle]; exact h)
          | (rw [commitConfirmation_handle]; exact h)
          | (rw [resetPanel_handle]; exact h)
          | (split <;> simp_all [input_char_handle]))

theorem commitConfirmation_isResponse (a : App) :
    (commitConfirmation a).action_panel_state.isResponse = true := rfl

theorem commitConfirmation_focus (a : App) :
    (commitConfirmation a).focus = Focus.ActionPanelResponse := rfl

theorem inputEnter_spawned (a : App) : (inputEnter a).spawned = false := by
  unfold inputEnter
  split
  · split <;> rfl
  · rfl

theorem hi_spawned_eq (a : App) (k : KeyEvent) (env : ConsoleEnv) :
    (handleInput a k env).spawned = false ∨
      (handleInput a k env).app = commitConfirmation a := by
  unfold handleInput
  split
  · split
    · exact .inl rfl
    · split <;> exact .inl rfl
  · split <;>
      (split <;> first | exact .inl rfl | exact .inl (inputEnter_spawned a) | exact .inr rfl)

theorem hi_keep (a : App) (k : KeyEvent) (env : ConsoleEnv)
    (hfoc : a.focus = Focus.ActionPanelResponse) (hpan : a.action_panel_state.isResponse = true) :
    ((handleInput a k env).app.action_task_handle.isSome = true →
      (handleInput a k env).app.action_panel_state.isResponse = true ∧
      (handleInput a k env).app.focus = Focus.ActionPanelResponse) ∧
    (handleInput a k env).spawned = false := by
  have hguard : ¬(a.is_action_in_progress = true ∧ a.focus ≠ Focus.ActionPanelResponse) := by
    simp [hfoc]
  have hup : a.focus_up = a := focus_up_id_of_response a hfoc
  have hdown : a.focus_down = a := focus_down_id_of_response a hfoc
  cases hk : k.code with
  | Up => simp [handleInput, hfoc, hk, hguard, hup, hpan]
  | Down => simp [handleInput, hfoc, hk, hguard, hdown, hpan]
  | Char c =>
    by_cases hw : c = 'w'
    · simp [handleInput, hfoc, hk, hguard, hw, hup, hpan]
    · by_cases hs : c = 's'
      · simp [handleInput, hfoc, hk, hguard, hs, hdown, hpan]
      · simp [handleInput, hfoc, hk, hguard, hw, hs, dismissResponsePanel_handle]
  | Enter => simp [handleInput, hfoc, hk, hguard, dismissResponsePanel_handle]
  | Esc => simp [handleInput, hfoc, hk, hguard, dismissResponsePanel_handle]
  | Backspace => simp [handleInput, hfoc, hk, hguard, dismissResponsePanel_handle]
  | Left => simp [handleInput, hfoc, hk, hguard, dismissResponsePanel_handle]
  | Right => simp [handleInput, hfoc, hk, hguard, dismissResponsePanel_handle]
  | Other => simp [handleInput, hfoc, hk, hguard, dismissResponsePanel_handle]

theorem step_preserves_inv {s t : Sys} (hstep : Step s t) (hinv : SysInv s) : SysInv t := by
  cases hstep with
  | input k env prog hps hv =>
    constructor
    · cases hh : s.app.action_task_handle with
      | none =>
        intro hs
        have h0 := hi_handle_none s.app k env hh
        have : (sysAfterInput s k env prog).app.action_task_handle = none := h0
        rw [this] at hs
        simp at hs
      | some u =>
        have hx := hinv.1 (by simp [hh])
        have hk2 := hi_keep s.app k env hx.2 hx.1
        intro hs
        exact hk2.1 hs
    · intro hpend
      have hsp : (handleInput s.app k env).spawned = true := hpend
      rcases hi_spawned_eq s.app k env with h0 | h0
      · rw [h0] at hsp
        cases hsp
      · have : (sysAfterInput s k env prog).app = commitConfirmation s.app := h0
        rw [this]
        exact ⟨commitConfirmation_isResponse s.app, commitConfirmation_focus s.app⟩
  | store hps =>
    constructor
    · intro _
      exact hinv.2 hps
    · intro hp
      exact absurd hp (by simp [sysAfterStore])
  | bgOp op rest h =>
    constructor
    · intro hs
      have h1 : (applyOp s.app op).action_task_handle = s.app.action_task_handle :=
        applyOp_handle s.app op
      have hs2 : s.app.action_task_handle.isSome = true := by
        have : (sysAfterBgOp s op rest).app.action_task_handle = s.app.action_task_handle := h1
        rw [this] at hs
        exact hs
      have hx := hinv.1 hs2
      constructor
      · have : (sysAfterBgOp s op rest).app.action_panel_state.isResponse =
            s.app.action_panel_state.isResponse := applyOp_isResponse s.app op
        rw [this]
        exact hx.1
      · have : (sysAfterBgOp s op rest).app.focus = s.app.focus := applyOp_focus s.app op
        rw [this]
        exact hx.2
    · intro hp
      have hx := hinv.2 hp
      constructor
      · have : (sysAfterBgOp s op rest).app.action_panel_state.isResponse =
            s.app.action_panel_state.isResponse := applyOp_isResponse s.app op
        rw [this]
        exact hx.1
      · have : (sysAfterBgOp s op rest).app.focus = s.app.focus := applyOp_focus s.app op
        rw [this]
        exact hx.2
  | bgBranch p q h => exact hinv
  | tick e hps =>
    constructor
    · intro hs
      have hs2 : s.app.action_task_handle.isSome = true := by
        have : (sysAfterTick s e).app.action_task_handle = s.app.action_task_handle :=
          applyTick_handle s.app e
        rw [this] at hs
        exact hs
      have hx := hinv.1 hs2
      constructor
      · have : (sysAfterTick s e).app.action_panel_state = s.app.action_panel_state :=
          applyTick_panel s.app e
        rw [this]
        exact hx.1
      · have : (sysAfterTick s e).app.focus = s.app.focus := applyTick_focus s.app e
        rw [this]
        exact hx.2
    · intro hp
      have hx := hinv.2 hp
      constructor
      · have : (sysAfterTick s e).app.action_panel_state = s.app.action_panel_state :=
          applyTick_panel s.app e
        rw [this]
        exact hx.1
      · have : (sysAfterTick s e).app.focus = s.app.focus := applyTick_focus s.app e
        rw [this]
        exact hx.2

theorem reachable_inv {s : Sys} (h : Reachable s) : SysInv s := by
  induction h with
  | init profiles =>
    constructor
    · intro h0
      simp [App.new] at h0
    · intro h0
      cases h0
  | step hr hstep ih => exact step_preserves_inv hstep ih

end HiveTUI

namespace HiveTUI

/-! ## The scenario trace is reachable -/

theorem ct16_reachable : Reachable ct16 := by
  have h0 : Reachable ct0 := Reachable.init [defaultProfile]
  have h1 : Reachable ct1 :=
    h0.step (Step.input ct0 pressRight idleConsoleEnv .done (by decide)
      (fun h => absurd h (by decide)))
  have h2 : Reachable ct2 :=
    h1.step (Step.input ct1 pressEnter idleConsoleEnv .done (by decide)
      (fun h => absurd h (by decide)))
  have h3 : Reachable ct3 :=
    h2.step (Step.input ct2 (pressChar 'l') idleConsoleEnv .done (by decide)
      (fun h => absurd h (by decide)))
  have h4 : Reachable ct4 :=
    h3.step (Step.input ct3 (pressChar 'l') idleConsoleEnv .done (by decide)
      (fun h => absurd h (by decide)))
  have h5 : Reachable ct5 :=
    h4.step (Step.input ct4 (pressChar 'a') idleConsoleEnv .done (by decide)
      (fun h => absurd h (by decide)))
  have h6 : Reachable ct6 :=
    h5.step (Step.input ct5 (pressChar 'm') idleConsoleEnv .done (by decide)
      (fun h => absurd h (by decide)))
  have h7 : Reachable ct7 :=
    h6.step (Step.input ct6 (pressChar 'a') idleConsoleEnv .done (by decide)
      (fun h => absurd h (by decide)))
  have h8 : Reachable ct8 :=
    h7.step (Step.input ct7 (pressChar '3') idleConsoleEnv .done (by decide)
      (fun h => absurd h (by decide)))
  have h9 : Reachable ct9 :=
    h8.step (Step.input ct8 pressEnter idleConsoleEnv .done (by decide)
      (fun h => absurd h (by decide)))
  have h10 : Reachable ct10 :=
    h9.step (Step.input ct9 pressEnter idleConsoleEnv c1TaskProg (by decide)
      (fun _ => ValidTask.run c1TaskOps none (by decide)))
  have h11 : Reachable ct11 := h10.step (Step.store ct10 (by decide))
  have h12 : Reachable ct12 :=
    h11.step (Step.bgBranch ct11 (proceedBranchTask c1TaskOps none) abortBranchTask (by decide))
  have h13 : Reachable ct13 :=
    h12.step (Step.bgOp ct12 (.lineOp "pulling manifest" true) ctProg2 (by decide))
  have h14 : Reachable ct14 :=
    h13.step (Step.bgOp ct13 (.lineOp "success" true) ctProg3 (by decide))
  have h15 : Reachable ct15 :=
    h14.step (Step.bgOp ct14 (.lineOp "Model pull completed successfully." true)
      (finalizeTask none) (by decide))
  exact h15.step (Step.bgOp ct15 (.finalizeOp none) .done (by decide))

end HiveTUI

namespace HiveTUI

/-! ## Claim theorems -/

/-- Claim C1 (counterexample): in the end-to-end pull scenario (select
"Pull model", type `llama3`, confirm with the default "proceed" choice,
stream the two records to completion) the Response panel's output lines
are not the three-element list the claim states: the panel is seeded
with the placeholder line "Initiating action..." when the task is
spawned, so the list has four elements. -/
theorem pull_scenario_spec_lines_false :
    Reachable ct16 ∧
      ct16.app.action_panel_state.responseLines ≠
        ["pulling manifest", "success", "Model pull completed successfully."] :=
  ⟨ct16_reachable, by decide⟩

/-- Claim C1 (amended): after the background task of the end-to-end
pull scenario completes, the Response panel holds the model name
`llama3`, the output lines `["Initiating action...", "pulling
manifest", "success", "Model pull completed successfully."]`, and the
overall-success flag is true. -/
theorem pull_scenario_final_state :
    Reachable ct16 ∧
      ct16.app.action_panel_state =
        .Response "llama3" .Pull
          ["Initiating action...", "pulling manifest", "success",
            "Model pull completed successfully."] true :=
  ⟨ct16_reachable, by decide⟩

/-- Claim C2 (evaluation at the failing input): the line
`{"status":"downloading","error":null}` decodes to a success record
with message "downloading" as the claim states, but the line
`{"error":"not found"}` decodes to a record whose success flag is
`true` in the code (only a boolean `true` in the `error` field makes
`err.as_bool().unwrap_or(false)` hold), while the spec-modelled rule
says a present, truthy `error` makes the line a failure.  The
raw-JSON-text message fallback does hold. -/
theorem error_line_decode_eval :
    decodePullLine downloadingLine = ⟨"downloading", true⟩ ∧
    decodePullLine notFoundLine = ⟨notFoundLine, true⟩ ∧
    specFailureOfLine notFoundLine = true := by
  refine ⟨by decide, ?_, by decide⟩
  decide

/-- Claim C3: the ingestion loop of `pull_model` produces the same
sequence of decoded records for any two chunkings of the same bytes
(in particular one byte at a time or all at once). -/
theorem ingest_chunking_invariant (cs ds : List (List Char)) (h : cs.flatten = ds.flatten) :
    streamRecords cs = streamRecords ds := by
  rw [streamRecords_eq_processAll, streamRecords_eq_processAll, h]

/-- Witness for C3: a mid-token chunking of the scenario bytes yields
the same records as the single-chunk delivery. -/
theorem ingest_chunking_invariant_witness :
    c3ChunksA.flatten = c3ChunksB.flatten ∧ streamRecords c3ChunksA = streamRecords c3ChunksB :=
  ⟨by decide, ingest_chunking_invariant c3ChunksA c3ChunksB (by decide)⟩

/-- Claim C4 (counterexample): at the reachable end state of the pull
scenario the abort handle is still present (the completing task cannot
drop its own handle) while `action_in_progress` has been cleared by the
finalization critical section, so a present handle does not imply the
flag. -/
theorem pending_handle_flag_counterexample :
    Reachable ct16 ∧ ct16.app.action_task_handle.isSome = true ∧
      ct16.app.is_action_in_progress = false :=
  ⟨ct16_reachable, by decide, by decide⟩

/-- Claim C4 (amended): in every reachable state, a present task handle
implies the action panel is in the `Running/Response` state (with focus
on it); `action_in_progress` may already be false once the task has
finished naturally. -/
theorem pending_handle_implies_response {s : Sys} (hr : Reachable s)
    (hh : s.app.action_task_handle.isSome = true) :
    s.app.action_panel_state.isResponse = true ∧ s.app.focus = Focus.ActionPanelResponse :=
  (reachable_inv hr).1 hh

/-- Witness for the amended C4, at the reachable scenario end state. -/
theorem pending_handle_implies_response_witness :
    ct16.app.action_task_handle.isSome = true ∧
      (ct16.app.action_panel_state.isResponse = true ∧
        ct16.app.focus = Focus.ActionPanelResponse) :=
  ⟨by decide, pending_handle_implies_response ct16_reachable (by decide)⟩

end HiveTUI

namespace HiveTUI

/-- Claim C5: while an action is in progress and focus is not the
Response region, any key other than the honored quit and Escape keys
leaves the state unchanged except for exactly one banner, and no task
is spawned and the loop does not exit. -/
theorem action_guard_rejects_input (a : App) (k : KeyEvent) (env : ConsoleEnv)
    (hprog : a.is_action_in_progress = true) (hfoc : a.focus ≠ Focus.ActionPanelResponse)
    (hq : k.code ≠ .Char 'q') (he : k.code ≠ .Esc) :
    handleInput a k env =
      ⟨{ a with banners := a.banners ++ ["Action in progress. Input ignored."] }, false, false⟩ := by
  unfold handleInput
  rw [if_pos ⟨hprog, hfoc⟩, if_neg hq, if_neg (fun hand => he hand.1)]
  rfl

/-- Witness for C5. -/
theorem action_guard_rejects_input_witness :
    c5App.is_action_in_progress = true ∧ c5App.focus ≠ Focus.ActionPanelResponse ∧
      handleInput c5App ⟨.Char 'd', true⟩ idleConsoleEnv =
        ⟨{ c5App with banners := c5App.banners ++ ["Action in progress. Input ignored."] },
          false, false⟩ :=
  ⟨by decide, by decide,
    action_guard_rejects_input c5App ⟨.Char 'd', true⟩ idleConsoleEnv (by decide) (by decide)
      (by decide) (by decide)⟩

/-- Claim C6: in the `AwaitingInput` state (focus on the input panel,
panel `PullModel` or `DeleteModel`, no action running), Enter with a
non-empty model name moves to `AwaitingConfirmation` with the
confirmation choice defaulted to "proceed" (selection 0), and Enter
with an empty name pushes one banner and changes nothing else. -/
theorem input_enter_transitions (a : App) (env : ConsoleEnv) (m : Bool)
    (hfoc : a.focus = Focus.ActionPanelInput)
    (hflag : a.is_action_in_progress = false)
    (hpanel : a.action_panel_state = .PullModel ∨ a.action_panel_state = .DeleteModel) :
    (a.action_input_model_name ≠ "" →
      handleInput a ⟨.Enter, m⟩ env =
        ⟨{ a with
            action_panel_state := .Confirmation a.action_input_model_name
              (if a.action_panel_state = .PullModel then .Pull else .Delete),
            focus := .ActionPanelConfirm, confirmation_selection := 0 }, false, false⟩) ∧
    (a.action_input_model_name = "" →
      handleInput a ⟨.Enter, m⟩ env =
        ⟨{ a with banners := a.banners ++ ["Model name cannot be empty."] }, false, false⟩) := by
  have hguard : ¬(a.is_action_in_progress = true ∧ a.focus ≠ Focus.ActionPanelResponse) := by
    simp [hflag]
  constructor
  · intro hname
    rcases hpanel with h | h <;>
      simp [handleInput, hfoc, hflag, hguard, inputEnter, hname, h, App.add_banner]
  · intro hname
    rcases hpanel with h | h <;>
      simp [handleInput, hfoc, hflag, hguard, inputEnter, hname, h, App.add_banner]

/-- Witness for C6. -/
theorem input_enter_transitions_witness :
    c6App.focus = Focus.ActionPanelInput ∧ c6App.is_action_in_progress = false ∧
      c6App.action_panel_state = .PullModel ∧ c6App.action_input_model_name ≠ "" ∧
      handleInput c6App ⟨.Enter, true⟩ idleConsoleEnv =
        ⟨{ c6App with
            action_panel_state := .Confirmation c6App.action_input_model_name
              (if c6App.action_panel_state = .PullModel then .Pull else .Delete),
            focus := .ActionPanelConfirm, confirmation_selection := 0 }, false, false⟩ :=
  ⟨by decide, by decide, by decide, by decide,
    (input_enter_transitions c6App idleConsoleEnv true (by decide) (by decide)
      (.inl (by decide))).1 (by decide)⟩

/-- Claim C7: a streamed line that fails structured decode yields one
failure record whose message embeds the raw line text (and the decode
error), and every subsequent line of the stream is still processed
exactly as it would have been. -/
theorem decode_failure_keeps_processing (bad : List Char) (rest : List (List Char))
    (err : String) (hnl : '\n' ∉ bad) (hne : (trimChars bad).isEmpty = false)
    (hfail : parseJson (String.mk (trimChars bad)) = .error err) :
    streamRecords ((bad ++ ['\n']) :: rest) =
      ⟨"Non-JSON line: " ++ String.mk (trimChars bad) ++ " (Parse Error: " ++ err ++ ")",
        false⟩ :: streamRecords rest := by
  have hb : breakLines (bad ++ ['\n']) = ([bad], []) := breakLines_terminated hnl
  have hc : processCompleteLine bad =
      some ⟨"Non-JSON line: " ++ String.mk (trimChars bad) ++ " (Parse Error: " ++ err ++ ")",
        false⟩ := by
    simp [processCompleteLine, decodePullLine, hne, hfail]
  simp only [streamRecords, runChunks, chunkStep, List.nil_append]
  rw [hb]
  simp [hc]

/-- Witness for C7: `not json at all` followed by a well-formed
record. -/
theorem decode_failure_keeps_processing_witness :
    ('\n' ∉ c7Bad) ∧ (trimChars c7Bad).isEmpty = false ∧
      parseJson (String.mk (trimChars c7Bad)) = .error "invalid keyword" ∧
      streamRecords ((c7Bad ++ ['\n']) :: c7Rest) =
        ⟨"Non-JSON line: " ++ String.mk (trimChars c7Bad) ++
            " (Parse Error: " ++ "invalid keyword" ++ ")", false⟩ :: streamRecords c7Rest :=
  ⟨by decide, by decide, rfl,
    decode_failure_keeps_processing c7Bad c7Rest "invalid keyword" (by decide) (by decide) rfl⟩

end HiveTUI

namespace HiveTUI

/-- Claim C8: when the spawned task observes the "abort" confirmation
choice (selection 1), its run is independent of the streaming sections
and the transport outcome (no network effect reaches the state): it
appends exactly the single line "Action cancelled by user." to the
response panel, leaves the overall flag true, sets the scroll position,
and clears `action_in_progress`. -/
theorem abort_choice_no_network (a : App) (m : String) (t : ActionType) (ls : List String)
    (sc : Bool) (ops : List AtomicOp) (apiErr : Option String)
    (hsel : a.confirmation_selection = 1)
    (hpanel : a.action_panel_state = .Response m t ls sc) :
    runProg (.branchChoice (proceedBranchTask ops apiErr) abortBranchTask) a =
      { a with action_panel_state := .Response m t (ls ++ ["Action cancelled by user."]) true,
               action_panel_scroll := ls.length % 65536,
               is_action_in_progress := false } := by
  simp [runProg, hsel, abortBranchTask, finalizeTask, applyOp,
    App.add_action_output_line, hpanel]

/-- Witness for C8 (with non-trivial streaming sections and a transport
error that the abort branch never performs). -/
theorem abort_choice_no_network_witness :
    c8App.confirmation_selection = 1 ∧
      c8App.action_panel_state = .Response "llama3" .Pull ["Initiating action..."] true ∧
      runProg
          (.branchChoice
            (proceedBranchTask [.lineOp "x" true, .bannerOp "y"] (some "transport error"))
            abortBranchTask) c8App =
        { c8App with
            action_panel_state :=
              .Response "llama3" .Pull
                ["Initiating action...", "Action cancelled by user."] true,
            action_panel_scroll := ["Initiating action..."].length % 65536,
            is_action_in_progress := false } :=
  ⟨by decide, by decide,
    abort_choice_no_network c8App "llama3" .Pull ["Initiating action..."] true
      [.lineOp "x" true, .bannerOp "y"] (some "transport error") (by decide) (by decide)⟩

/-- Claim C9: `clear_caches` (called directly by manual refresh and by
`set_active_profile` on a profile switch) takes and aborts any pending
task handle (pushing the cancellation banner), clears the in-progress
flag, resets the action panel to `Idle`, and sets every cached snapshot
field to `None` together. -/
theorem clear_caches_resets (a : App) (i : Nat) (hi : i < a.profiles.length) :
    (a.clear_caches).action_task_handle = none ∧
    (a.clear_caches).is_action_in_progress = false ∧
    (a.clear_caches).action_panel_state = .None ∧
    (a.clear_caches).worker_versions = none ∧
    (a.clear_caches).worker_statuses = none ∧
    (a.clear_caches).worker_connections = none ∧
    (a.clear_caches).worker_pings = none ∧
    (a.clear_caches).worker_tags = none ∧
    (a.clear_caches).queue_map = none ∧
    (a.clear_caches).auth_keys = none ∧
    (a.clear_caches).generate_response = none ∧
    (a.action_task_handle.isSome = true →
      (a.clear_caches).banners = a.banners ++ ["Cancelled active action task."]) ∧
    a.set_active_profile i = ({ a with active_profile := i }).clear_caches := by
  unfold App.set_active_profile
  cases hh : a.action_task_handle <;> simp [App.clear_caches, hh, hi]

/-- Witness for C9, at a state with populated caches and a live
handle. -/
theorem clear_caches_resets_witness :
    0 < c9App.profiles.length ∧
      ((c9App.clear_caches).action_task_handle = none ∧
        (c9App.clear_caches).is_action_in_progress = false ∧
        (c9App.clear_caches).action_panel_state = .None ∧
        (c9App.clear_caches).worker_versions = none ∧
        (c9App.clear_caches).worker_statuses = none ∧
        (c9App.clear_caches).worker_connections = none ∧
        (c9App.clear_caches).worker_pings = none ∧
        (c9App.clear_caches).worker_tags = none ∧
        (c9App.clear_caches).queue_map = none ∧
        (c9App.clear_caches).auth_keys = none ∧
        (c9App.clear_caches).generate_response = none ∧
        (c9App.action_task_handle.isSome = true →
          (c9App.clear_caches).banners =
            c9App.banners ++ ["Cancelled active action task."]) ∧
        c9App.set_active_profile 0 = ({ c9App with active_profile := 0 }).clear_caches) :=
  ⟨by decide, clear_caches_resets c9App 0 (by decide)⟩

/-- Claim C10: `add_action_output_line` is a no-op on the application
state whenever the panel is not in the `Response` state (the source
only logs to stderr there); output lines can only be appended while the
panel shows a response. -/
theorem output_append_requires_response (a : App) (line : String) (s : Bool)
    (h : a.action_panel_state.isResponse = false) :
    a.add_action_output_line line s = a := by
  unfold App.add_action_output_line
  split
  · next m t ls sc heq => rw [heq] at h; simp [ActionPanelState.isResponse] at h
  · rfl

/-- Witness for C10. -/
theorem output_append_requires_response_witness :
    (App.new []).action_panel_state.isResponse = false ∧
      (App.new []).add_action_output_line "ignored" true = App.new [] :=
  ⟨by decide, output_append_requires_response (App.new []) "ignored" true (by decide)⟩

end HiveTUI
